import Mathlib

/-!
# Verification of the anakin-language-server core (`anakinls/server.py`)

This file gives a shallow embedding, in Lean 4, of the algorithmic core of the
`anakin-language-server` LSP adapter and proves the specification's claims
about it.  The embedded pieces are:

* the diff-based text-edit synthesis `_get_text_edits` (the "Edit Coalescer"
  walking the line differ's classification stream),
* the refactoring result translator `_get_document_changes` and the
  `code_action` handler,
* the document-handle cache `get_script`,
* the validation dispatcher `_validate` with its jedi syntax-error
  short-circuit,
* the checker reporters `PyflakesReporter.flake`,
  `PyflakesReporter.syntaxError`,
* the location translator `_get_locations` with the `definition` /
  `references` handlers,
* the configuration handler `did_change_configuration`.

External collaborators (jedi, pyflakes, pycodestyle, mypy, the pygls
workspace) are modelled as oracle parameters: lists of the findings they
would report, or functions supplying documents/versions/URIs.  Python `int`
values that can go negative (line/column arithmetic) are modelled as `Int`;
loop counters that start at `0` and only increment are modelled as `Nat`.
-/

set_option autoImplicit false

namespace Anakinls

/-! ### LSP data types (pygls `types`)

Positions carry Python integers.  In the source every `types.Position`
constructed by the Edit Coalescer is `types.Position(line_number)`, i.e. the
character component defaults to `0`. -/

structure Position where
  line : Int
  character : Int := 0
  deriving Repr, DecidableEq

structure Range where
  start : Position
  «end» : Position
  deriving Repr, DecidableEq

structure TextEdit where
  range : Range
  newText : String
  deriving Repr, DecidableEq

inductive DiagnosticSeverity where
  | Error
  | Warning
  | Information
  | Hint
  deriving Repr, DecidableEq

structure Diagnostic where
  range : Range
  message : String
  severity : DiagnosticSeverity
  code : Option String := none
  source : Option String := none
  deriving Repr, DecidableEq

structure Location where
  uri : String
  range : Range
  deriving Repr, DecidableEq

/-! ### The Line Diff Engine

`difflib.Differ.compare` classifies each output line by its two-character
prefix: `'  '` (unchanged), `'- '` (only in the old sequence), `'+ '`
(only in the new sequence), `'? '` (intraline hint, carrying no buffer
line).  We model one output line as a `DLine`; the payload is the
`line[2:]` part the coalescer reads. -/

inductive DLine where
  | unchanged (s : String)
  | removed (s : String)
  | inserted (s : String)
  | hint
  deriving Repr, DecidableEq

/-- The old-sequence projection of a classification stream: the `unchanged`
and `removed` payloads in order (§4.1 contract). -/
def oldOf : List DLine → List String
  | [] => []
  | .unchanged s :: d => s :: oldOf d
  | .removed s :: d => s :: oldOf d
  | .inserted _ :: d => oldOf d
  | .hint :: d => oldOf d

/-- The new-sequence projection of a classification stream: the `unchanged`
and `inserted` payloads in order (§4.1 contract). -/
def newOf : List DLine → List String
  | [] => []
  | .unchanged s :: d => s :: newOf d
  | .inserted s :: d => s :: newOf d
  | .removed _ :: d => newOf d
  | .hint :: d => newOf d

/-- Length of the longest common subsequence of two line sequences. -/
def lcsLen : List String → List String → Nat
  | [], _ => 0
  | _, [] => 0
  | x :: xs, y :: ys =>
      if x = y then lcsLen xs ys + 1
      else max (lcsLen xs (y :: ys)) (lcsLen (x :: xs) ys)

/-- Model of `difflib.Differ.compare` at line granularity: an
LCS-optimal classification of the two sequences.  (The concrete tie-breaking
of `difflib` differs, but any output satisfying the §4.1 projection contract
is handled identically by the coalescer; `differ_compare_oldOf` /
`differ_compare_newOf` below establish the contract for this model.) -/
def differCompare : List String → List String → List DLine
  | [], [] => []
  | [], y :: ys => .inserted y :: differCompare [] ys
  | x :: xs, [] => .removed x :: differCompare xs []
  | x :: xs, y :: ys =>
      if x = y then .unchanged x :: differCompare xs ys
      else if lcsLen (x :: xs) ys ≤ lcsLen xs (y :: ys) then
        .removed x :: differCompare xs (y :: ys)
      else
        .inserted y :: differCompare (x :: xs) ys
  termination_by xs ys => xs.length + ys.length

/-! ### The Edit Coalescer (`_get_text_edits`) -/

/-- `''.join(lines)`. -/
def strJoin : List String → String
  | [] => ""
  | s :: l => s ++ strJoin l

/-- The `_append` closure of `_get_text_edits`: emit the pending span as one
`TextEdit`.  `start` is the captured `types.Position(line_number)` at span
opening, `ln` the cursor at close; when `replace_lines` is unset the end
equals the start (pure insertion). -/
def mkEdit (start : Nat) (replaceLines : Bool) (ln : Nat) (lines : List String) :
    TextEdit :=
  { range :=
      { start := { line := (start : Int) }
        «end» := if replaceLines then { line := (ln : Int) } else { line := (start : Int) } }
    newText := strJoin lines }

/-- The loop body of `_get_text_edits` over the differ's output, written as a
recursion carrying the loop state `(line_number, start, replace_lines,
lines)`; the trailing `if start: _append()` is the `[]` case.  `start` is
`none` exactly when the Python variable is `None` (a constructed
`types.Position` object is always truthy). -/
def coalesce (ln : Nat) (start : Option Nat) (replaceLines : Bool)
    (lines : List String) : List DLine → List TextEdit
  | [] =>
      match start with
      | some s0 => [mkEdit s0 replaceLines ln lines]
      | none => []
  | .hint :: rest => coalesce ln start replaceLines lines rest
  | .removed _ :: rest =>
      coalesce (ln + 1) (some (start.getD ln)) true lines rest
  | .inserted s :: rest =>
      coalesce ln (some (start.getD ln)) replaceLines (lines ++ [s]) rest
  | .unchanged _ :: rest =>
      match start with
      | some s0 => mkEdit s0 replaceLines ln lines :: coalesce (ln + 1) none false [] rest
      | none => coalesce (ln + 1) none false [] rest

/-- A changed file of a jedi refactoring: the old content
(`changes._module_node.get_code()`) and the proposed new content
(`changes.get_new_code()`), both already split into lines with
`parso.split_lines(..., keepends=True)` (each line carries its own
terminator). -/
structure ChangedFile where
  oldLines : List String
  newLines : List String
  deriving Repr, DecidableEq

/-- `_get_text_edits`: diff the old lines against the new lines and coalesce
the classification stream into text edits, starting from cursor `0` with no
open span. -/
def _get_text_edits (changes : ChangedFile) : List TextEdit :=
  coalesce 0 none false [] (differCompare changes.oldLines changes.newLines)

/-! ### Applying edits (the semantics claims C1/C2 quantify over)

All emitted ranges are `(line, 0)`–`(line, 0)` positions expressed against
the original buffer, and the edits are emitted in increasing range order, so
applying them in order amounts to: keep the original lines before the next
edit's start line, splice in the replacement text, resume after the edit's
end line. -/

def applyGo (old : List String) : Nat → List TextEdit → String
  | pos, [] => strJoin (old.drop pos)
  | pos, e :: es =>
      strJoin ((old.drop pos).take (e.range.start.line.toNat - pos))
        ++ e.newText
        ++ applyGo old e.range.«end».line.toNat es

/-- Apply a list of text edits (in their emitted order, ranges against the
original buffer) to the original line sequence, yielding the resulting text. -/
def applyEdits (old : List String) (edits : List TextEdit) : String :=
  applyGo old 0 edits

/-! ### The Document Handle Cache (`get_script`) -/

/-- A jedi `Script` handle, bound to the document's source text and file
path at construction time (the `environment`/`project` arguments are
process-wide constants and carry no per-document information). -/
structure Script where
  code : String
  path : String
  deriving Repr, DecidableEq

/-- `get_script`: return the cached handle unless absent or `update` is set,
otherwise construct a fresh one and store it.  The document fetch plus the
`Script(...)` constructor — which may raise — is the oracle `construct`; the
module-level `scripts` dict is threaded explicitly as an association list
(assignment shadows the previous binding).  The call returns its outcome
together with the post-call cache: when `construct` raises, the exception
propagates before the assignment `scripts[uri] = result` is reached, so the
cache is returned unchanged. -/
def get_script (construct : String → Except String Script)
    (scripts : List (String × Script)) (uri : String) (update : Bool) :
    Except String Script × List (String × Script) :=
  let result := if update then none else scripts.lookup uri
  match result with
  | some s => (.ok s, scripts)
  | none =>
      match construct uri with
      | .error e => (.error e, scripts)
      | .ok s => (.ok s, (uri, s) :: scripts)

/-! ### The checker reporters -/

/-- `str.rstrip('\n\r')`: drop trailing line terminators. -/
def rstripNl (s : String) : String :=
  ((s.toList.reverse.dropWhile (fun c => c == '\n' || c == '\r')).reverse).asString

/-- One pyflakes message: its reported (1-based) line, (0-based) column,
class name (`message.__class__.__name__`, e.g. `"UndefinedName"`) and the
formatted text `message.message % message.message_args`. -/
structure FlakeMessage where
  lineno : Int
  col : Int
  className : String
  text : String
  deriving Repr, DecidableEq

/-- `PyflakesReporter._get_codeline`: `script._code_lines[line]` with the
trailing terminator stripped.  The indexing models the Python subscript for
in-range `line` (the theorems assume `0 ≤ line < len(code_lines)`). -/
def PyflakesReporter._get_codeline (codeLines : List String) (line : Int) :
    String :=
  rstripNl (codeLines.getD line.toNat "")

/-- `PyflakesReporter.flake`: one diagnostic per checker finding; severity is
error when the message's class name is in the configured
`pyflakes_errors` set, warning otherwise; the range runs from the reported
column to the end of the stripped code line. -/
def PyflakesReporter.flake (codeLines : List String) (errors : List String)
    (m : FlakeMessage) : Diagnostic :=
  let line : Int := m.lineno - 1
  let severity :=
    if m.className ∈ errors then DiagnosticSeverity.Error
    else DiagnosticSeverity.Warning
  { range :=
      { start := { line := line, character := m.col }
        «end» :=
          { line := line
            character :=
              ((PyflakesReporter._get_codeline codeLines line).length : Int) } }
    message := m.text
    severity := severity
    source := some "pyflakes" }

/-- `PyflakesReporter.syntaxError`: `col = offset or 0` (Python `or`: `None`
and `0` both give `0`), and the emitted end position is
`len(self._get_codeline(line)) - col`. -/
def PyflakesReporter.syntaxError (codeLines : List String) (msg : String)
    (lineno : Int) (offset : Option Int) : Diagnostic :=
  let line : Int := lineno - 1
  let col : Int := offset.getD 0
  { range :=
      { start := { line := line, character := col }
        «end» :=
          { line := line
            character :=
              ((PyflakesReporter._get_codeline codeLines line).length : Int)
                - col } }
    message := msg
    severity := DiagnosticSeverity.Error
    source := some "pyflakes" }

/-! ### Validation dispatch (`_validate`) -/

/-- One jedi syntax error (`script.get_syntax_errors()` entry): 1-based
start/end lines, 0-based columns. -/
structure JediSyntaxError where
  line : Int
  column : Int
  until_line : Int
  until_column : Int
  deriving Repr, DecidableEq

/-- The diagnostic `_validate` builds for one jedi syntax error. -/
def jediDiagnostic (x : JediSyntaxError) : Diagnostic :=
  { range :=
      { start := { line := x.line - 1, character := x.column }
        «end» := { line := x.until_line - 1, character := x.until_column } }
    message := "Invalid syntax"
    severity := DiagnosticSeverity.Error
    source := some "jedi" }

/-- The findings each downstream checker would append to `result` for this
document if invoked: pyflakes, pycodestyle and mypy modelled as oracles. -/
structure CheckerFindings where
  pyflakes : List Diagnostic
  pycodestyle : List Diagnostic
  mypy : List Diagnostic
  deriving Repr, DecidableEq

/-- Outcome of one `_validate` pass: the diagnostics published for the
document, and whether each downstream checker was invoked. -/
structure ValidateResult where
  published : List Diagnostic
  ranPyflakes : Bool
  ranPycodestyle : Bool
  ranMypy : Bool
  deriving Repr, DecidableEq

/-- `_validate`: build the jedi syntax diagnostics; if any exist, publish
only those and return.  Otherwise run pyflakes, pycodestyle and — when
enabled — mypy, each appending to `result`, and publish the concatenation. -/
def _validate (syntaxErrors : List JediSyntaxError)
    (checkers : CheckerFindings) (mypyEnabled : Bool) : ValidateResult :=
  let result := syntaxErrors.map jediDiagnostic
  if result ≠ [] then
    { published := result
      ranPyflakes := false
      ranPycodestyle := false
      ranMypy := false }
  else
    { published :=
        result ++ checkers.pyflakes ++ checkers.pycodestyle
          ++ (if mypyEnabled then checkers.mypy else [])
      ranPyflakes := true
      ranPycodestyle := true
      ranMypy := mypyEnabled }

/-! ### Locations (`_get_locations`, `definition`, `references`) -/

/-- A jedi `Name`: optional module path, 1-based line, 0-based column, and
the identifier text. -/
structure Name where
  module_path : Option String
  line : Int
  column : Int
  name : String
  deriving Repr, DecidableEq

/-- `_get_locations`: one `Location` per name that has a module path (names
without one are dropped by the comprehension's `if d.module_path` guard);
the range covers exactly the identifier on its 0-based line.  `fromFsPath`
is the `pygls.uris.from_fs_path` oracle. -/
def _get_locations (fromFsPath : String → String) (defs : List Name) :
    List Location :=
  defs.filterMap fun d =>
    match d.module_path with
    | none => none
    | some p =>
        some
          { uri := fromFsPath p
            range :=
              { start := { line := d.line - 1, character := d.column }
                «end» :=
                  { line := d.line - 1
                    character := d.column + (d.name.length : Int) } } }

/-- The `definition` handler: `script.goto` (the oracle `goto`) at the
1-based line, then `_get_locations`. -/
def definition (fromFsPath : String → String) (goto : Int → Int → List Name)
    (line character : Int) : List Location :=
  _get_locations fromFsPath (goto (line + 1) character)

/-- The `references` handler: `script.get_references` at the 1-based line,
then `_get_locations`. -/
def references (fromFsPath : String → String)
    (get_references : Int → Int → List Name) (line character : Int) :
    List Location :=
  _get_locations fromFsPath (get_references (line + 1) character)

/-! ### Refactoring result translation (`_get_document_changes`,
`code_action`) -/

/-- A versioned per-file edit group
(`types.TextDocumentEdit(VersionedTextDocumentIdentifier(uri, version),
text_edits)`). -/
structure TextDocumentEdit where
  uri : String
  version : Int
  edits : List TextEdit
  deriving Repr, DecidableEq

/-- The loop of `_get_document_changes`, threading the `result` list. -/
def documentChangesLoop (fromFsPath : String → String)
    (docVersion : String → Int) (result : List TextDocumentEdit) :
    List (String × ChangedFile) → List TextDocumentEdit
  | [] => result
  | p :: rest =>
      let text_edits := _get_text_edits p.2
      if text_edits ≠ [] then
        let uri := fromFsPath p.1
        documentChangesLoop fromFsPath docVersion
          (result ++ [{ uri := uri, version := docVersion uri, edits := text_edits }])
          rest
      else
        documentChangesLoop fromFsPath docVersion result rest

/-- `_get_document_changes`: for each changed file of the refactoring,
synthesize its edits; files whose edit list is empty contribute nothing
(`if text_edits:`).  `docVersion` is the
`ls.workspace.get_document(uri).version` oracle. -/
def _get_document_changes (fromFsPath : String → String)
    (docVersion : String → Int)
    (changedFiles : List (String × ChangedFile)) : List TextDocumentEdit :=
  documentChangesLoop fromFsPath docVersion [] changedFiles

inductive CodeActionKind where
  | RefactorInline
  | RefactorExtract
  deriving Repr, DecidableEq

structure CodeAction where
  title : String
  kind : CodeActionKind
  edit : List TextDocumentEdit
  deriving Repr, DecidableEq

/-- Outcome of the `code_action` handler: the response, and whether
`script.inline` (the engine's refactoring operation) was invoked. -/
structure CodeActionResult where
  response : Option (List CodeAction)
  inlineInvoked : Bool
  deriving Repr, DecidableEq

/-- The `code_action` handler: a non-empty selection returns `None` at once;
otherwise `script.inline` (the oracle `inline`, whose `RefactoringError` is
`Except.error`) runs at the cursor, a `RefactoringError` returns `None`, and
an empty `document_changes` list also returns `None` rather than an empty
code action. -/
def code_action (fromFsPath : String → String) (docVersion : String → Int)
    (inline : Except Unit (List (String × ChangedFile)))
    (rangeStart rangeEnd : Position) : CodeActionResult :=
  if rangeStart ≠ rangeEnd then
    { response := none, inlineInvoked := false }
  else
    match inline with
    | .error _ => { response := none, inlineInvoked := true }
    | .ok changedFiles =>
        let document_changes :=
          _get_document_changes fromFsPath docVersion changedFiles
        if document_changes ≠ [] then
          { response :=
              some [{ title := "Inline variable"
                      kind := CodeActionKind.RefactorInline
                      edit := document_changes }]
            inlineInvoked := true }
        else
          { response := none, inlineInvoked := true }

/-! ### Configuration (`did_change_configuration`) -/

/-- The module-level `config` dict. -/
structure Config where
  pyflakes_errors : List String
  pycodestyle_config : Option String
  help_on_hover : Bool
  mypy_enabled : Bool
  deriving Repr, DecidableEq

/-- The pushed `settings.settings.anakinls` object: a field is `some v` when
the object has that attribute (`hasattr`), mirroring the per-key
`hasattr`/`getattr` loop. -/
structure AnakinSettings where
  pyflakes_errors : Option (List String) := none
  pycodestyle_config : Option (Option String) := none
  help_on_hover : Option Bool := none
  mypy_enabled : Option Bool := none
  deriving Repr, DecidableEq

/-- The module-level mutable state `did_change_configuration` touches:
`config` and the two derived caches (`pycodestyleOptions`, keyed by folder
with opaque option values of type `α`, and `mypyConfigs`). -/
structure ServerState (α : Type) where
  config : Config
  pycodestyleOptions : List (String × α)
  mypyConfigs : List (String × String)

/-- Outcome of `did_change_configuration`: the new module state and the
documents `_validate` was triggered for. -/
structure DidChangeConfigResult (α : Type) where
  state : ServerState α
  revalidated : List String

/-- `did_change_configuration`: copy every present recognized key into
`config`, recording all but `help_on_hover` in `changed`; clear
`pycodestyleOptions` when `pycodestyle_config` changed and `mypyConfigs`
when `mypy_enabled` changed; revalidate every open document iff `changed`
is non-empty.  `settings = none` models a missing `settings.settings` or
`anakinls` attribute (the early return). -/
def did_change_configuration {α : Type} (st : ServerState α)
    (workspaceDocuments : List String) (settings : Option AnakinSettings) :
    DidChangeConfigResult α :=
  match settings with
  | none => { state := st, revalidated := [] }
  | some s =>
      let c1 :=
        match s.pyflakes_errors with
        | some v => ({ st.config with pyflakes_errors := v }, ["pyflakes_errors"])
        | none => (st.config, [])
      let c2 :=
        match s.pycodestyle_config with
        | some v =>
            ({ c1.1 with pycodestyle_config := v }, c1.2 ++ ["pycodestyle_config"])
        | none => c1
      let c3 :=
        match s.help_on_hover with
        | some v => ({ c2.1 with help_on_hover := v }, c2.2)
        | none => c2
      let c4 :=
        match s.mypy_enabled with
        | some v => ({ c3.1 with mypy_enabled := v }, c3.2 ++ ["mypy_enabled"])
        | none => c3
      let changed := c4.2
      { state :=
          { config := c4.1
            pycodestyleOptions :=
              if "pycodestyle_config" ∈ changed then [] else st.pycodestyleOptions
            mypyConfigs :=
              if "mypy_enabled" ∈ changed then [] else st.mypyConfigs }
        revalidated := if changed ≠ [] then workspaceDocuments else [] }

/-- Span-state invariant of the coalescer loop: with no open span there is no
pending payload and `replace_lines` is unset; an open span starts at or
before the cursor, and exactly at the cursor when no line has been removed
in it (pure insertion). -/
def Inv (ln : Nat) (start : Option Nat) (repl : Bool) (lines : List String) :
    Prop :=
  match start with
  | none => repl = false ∧ lines = []
  | some s0 => s0 ≤ ln ∧ (repl = false → s0 = ln)

/-! ### Correctness of the Edit Coalescer -/

theorem strJoin_append (a b : List String) :
    strJoin (a ++ b) = strJoin a ++ strJoin b := by
  induction a with
  | nil => simp [strJoin]
  | cons x xs ih => simp [strJoin, ih, String.append_assoc]

/-- The differ model satisfies the first half of the §4.1 contract:
the `unchanged`/`removed` projection reproduces the original sequence. -/
theorem differCompare_oldOf (old new : List String) :
    oldOf (differCompare old new) = old := by
  induction old, new using differCompare.induct <;>
    (simp_all [differCompare, oldOf];
     try (rw [if_neg (by omega)]; simp_all [oldOf]))

/-- The differ model satisfies the second half of the §4.1 contract:
the `unchanged`/`inserted` projection reproduces the revised sequence. -/
theorem differCompare_newOf (old new : List String) :
    newOf (differCompare old new) = new := by
  induction old, new using differCompare.induct <;>
    (simp_all [differCompare, newOf];
     try (rw [if_neg (by omega)]; simp_all [newOf]))

/-- Diffing a sequence against itself classifies every line as unchanged. -/
theorem differCompare_self (l : List String) :
    differCompare l l = l.map DLine.unchanged := by
  induction l with
  | nil => simp [differCompare]
  | cons x xs ih => simp [differCompare, ih]

/-- With no span open, a run of unchanged lines only advances the cursor and
emits nothing. -/
theorem coalesce_map_unchanged (l : List String) (ln : Nat) :
    coalesce ln none false [] (l.map DLine.unchanged) = [] := by
  induction l generalizing ln with
  | nil => simp [coalesce]
  | cons x xs ih => simpa [coalesce] using ih (ln + 1)

/-- Every edit the coalescer emits starts at or after the open span's start
(resp. the current cursor when no span is open). -/
theorem coalesce_start_lb (d : List DLine) :
    ∀ (ln : Nat) (start : Option Nat) (repl : Bool) (lines : List String),
      (∀ s0, start = some s0 → s0 ≤ ln) →
      ∀ e ∈ coalesce ln start repl lines d,
        ((start.getD ln : Nat) : Int) ≤ e.range.start.line := by
  induction d with
  | nil =>
      intro ln start repl lines hle e he
      cases start with
      | none => simp [coalesce] at he
      | some s0 => simp [coalesce] at he; simp [he, mkEdit]
  | cons l rest ih =>
      intro ln start repl lines hle e he
      cases l with
      | hint => exact ih ln start repl lines hle e he
      | removed s =>
          have h := ih (ln + 1) (some (start.getD ln)) true lines
            (by
              intro s0 hs0
              cases start with
              | none => simp at hs0; omega
              | some t => simp at hs0; have := hle t rfl; omega)
            e (by simpa [coalesce] using he)
          simpa using h
      | inserted s =>
          have h := ih ln (some (start.getD ln)) repl (lines ++ [s])
            (by
              intro s0 hs0
              cases start with
              | none => simp at hs0; omega
              | some t => simp at hs0; have := hle t rfl; omega)
            e (by simpa [coalesce] using he)
          simpa using h
      | unchanged s =>
          cases start with
          | none =>
              have h := ih (ln + 1) none false [] (by simp) e
                (by simpa [coalesce] using he)
              simp only [Option.getD] at h ⊢
              omega
          | some s0 =>
              simp [coalesce] at he
              rcases he with he | he
              · simp [he, mkEdit]
              · have h := ih (ln + 1) none false [] (by simp) e he
                have hs0 := hle s0 rfl
                simp only [Option.getD] at h ⊢
                omega

/-- Skipping one kept line: when every remaining edit starts strictly after
`pos`, applying from `pos` keeps line `pos` verbatim and continues from
`pos + 1`. -/
theorem applyGo_cons (old : List String) (pos : Nat) (x : String)
    (es : List TextEdit)
    (hdrop : old.drop pos = x :: old.drop (pos + 1))
    (hlb : ∀ e ∈ es, ((pos : Int) + 1) ≤ e.range.start.line) :
    applyGo old pos es = x ++ applyGo old (pos + 1) es := by
  cases es with
  | nil => simp [applyGo, hdrop, strJoin]
  | cons e es' =>
      have hge : pos + 1 ≤ e.range.start.line.toNat := by
        have := hlb e (by simp)
        omega
      have hsub : e.range.start.line.toNat - pos
          = (e.range.start.line.toNat - (pos + 1)) + 1 := by omega
      simp only [applyGo, hdrop, hsub, List.take_succ_cons, strJoin,
        String.append_assoc]

/-- Main lemma: from any loop state satisfying `Inv`, applying the edits the
coalescer will emit for the rest of the classification stream — starting from
the open span's start — produces the pending payload followed by the revised
content of the rest of the stream. -/
theorem coalesce_apply (d : List DLine) :
    ∀ (ln : Nat) (start : Option Nat) (repl : Bool) (lines : List String)
      (old : List String),
      Inv ln start repl lines →
      oldOf d = old.drop ln →
      applyGo old (start.getD ln) (coalesce ln start repl lines d)
        = strJoin lines ++ strJoin (newOf d) := by
  induction d with
  | nil =>
      intro ln start repl lines old hinv hold
      cases start with
      | none =>
          obtain ⟨-, hlines⟩ := hinv
          simp [coalesce, applyGo, ← hold, oldOf, hlines, strJoin, newOf]
      | some s0 =>
          obtain ⟨hs0, hrepl⟩ := hinv
          cases repl with
          | true =>
              simp [coalesce, applyGo, mkEdit, ← hold, oldOf, strJoin, newOf]
          | false =>
              have : s0 = ln := hrepl rfl
              subst this
              simp [coalesce, applyGo, mkEdit, ← hold, oldOf, strJoin, newOf]
  | cons l rest ih =>
      intro ln start repl lines old hinv hold
      cases l with
      | hint => simpa [coalesce, newOf] using ih ln start repl lines old hinv hold
      | removed s =>
          have hdrop : old.drop ln = s :: oldOf rest := by
            rw [← hold]; rfl
          have hrest : oldOf rest = old.drop (ln + 1) := by
            have := List.tail_drop old ln
            rw [hdrop] at this
            simpa using this
          have hinv' : Inv (ln + 1) (some (start.getD ln)) true lines := by
            constructor
            · cases start with
              | none => simp
              | some t => have := hinv.1; simp; omega
            · intro h; cases h
          have h := ih (ln + 1) (some (start.getD ln)) true lines old hinv' hrest
          simpa [coalesce, newOf] using h
      | inserted s =>
          have hinv' : Inv ln (some (start.getD ln)) repl (lines ++ [s]) := by
            cases start with
            | none =>
                obtain ⟨hrepl, -⟩ := hinv
                exact ⟨le_refl _, fun _ => rfl⟩
            | some t =>
                obtain ⟨ht, hrepl⟩ := hinv
                exact ⟨ht, fun h => hrepl h⟩
          have h := ih ln (some (start.getD ln)) repl (lines ++ [s]) old hinv' hold
          simp only [coalesce, Option.getD_some] at h ⊢
          rw [h, strJoin_append]
          simp [newOf, strJoin, String.append_assoc]
      | unchanged s =>
          have hdrop : old.drop ln = s :: oldOf rest := by
            rw [← hold]; rfl
          have hrest : oldOf rest = old.drop (ln + 1) := by
            have := List.tail_drop old ln
            rw [hdrop] at this
            simpa using this
          have hdrop' : old.drop ln = s :: old.drop (ln + 1) := by
            rw [hdrop, hrest]
          have hlb : ∀ e ∈ coalesce (ln + 1) none false [] rest,
              ((ln : Int) + 1) ≤ e.range.start.line := by
            intro e he
            have := coalesce_start_lb rest (ln + 1) none false [] (by simp) e he
            simp only [Option.getD] at this
            omega
          have hstep := applyGo_cons old ln s
            (coalesce (ln + 1) none false [] rest) hdrop' hlb
          have h := ih (ln + 1) none false [] old ⟨rfl, rfl⟩ hrest
          simp only [Option.getD] at h
          cases start with
          | none =>
              obtain ⟨hrepl, hlines⟩ := hinv
              subst hrepl; subst hlines
              simp only [coalesce, Option.getD]
              rw [hstep, h]
              simp [newOf, strJoin, String.append_assoc]
          | some s0 =>
              obtain ⟨hs0, hrepl⟩ := hinv
              cases repl with
              | true =>
                  simp only [coalesce, Option.getD_some, applyGo, mkEdit]
                  simp only [Int.toNat_natCast, Nat.sub_self, List.take_zero,
                    strJoin, if_true]
                  rw [hstep, h]
                  simp [newOf, strJoin, String.append_assoc]
              | false =>
                  have : s0 = ln := hrepl rfl
                  subst this
                  simp only [coalesce, Option.getD_some, applyGo, mkEdit]
                  simp only [Int.toNat_natCast, Nat.sub_self, List.take_zero,
                    strJoin, if_false, Bool.false_eq_true]
                  rw [hstep, h]
                  simp [newOf, strJoin, String.append_assoc]

/-- **C1.** For every pair of line sequences `(old, new)`, applying the
sequence of text edits produced by `_get_text_edits` to the old sequence —
in their emitted order, every range interpreted against the original
buffer's line numbering — yields exactly the new content (the concatenation
of the new lines, which carry their own terminators). -/
theorem edit_coalescer_roundtrip (old new : List String) :
    applyEdits old (_get_text_edits ⟨old, new⟩) = strJoin new := by
  have h := coalesce_apply (differCompare old new) 0 none false [] old
    ⟨rfl, rfl⟩ (by rw [differCompare_oldOf]; simp)
  simpa [applyEdits, _get_text_edits, strJoin, differCompare_newOf] using h

/-- **C2.** Diffing a line sequence against itself produces an empty edit
list. -/
theorem edit_coalescer_idempotent (old : List String) :
    _get_text_edits ⟨old, old⟩ = [] := by
  simp only [_get_text_edits, differCompare_self]
  exact coalesce_map_unchanged old 0

/-- Helper (shared): a changed file whose new content equals its old content
yields no edits. -/
theorem getTextEdits_self (c : ChangedFile) (h : c.newLines = c.oldLines) :
    _get_text_edits c = [] := by
  obtain ⟨o, n⟩ := c
  simp only at h
  subst h
  simp only [_get_text_edits, differCompare_self]
  exact coalesce_map_unchanged n 0

/-- **C3.** When the document has at least one syntax error, the published
collection is exactly the jedi syntax diagnostics (one per reported error,
at the reported start/end line and column), and none of the downstream
checkers (pyflakes, pycodestyle, mypy) is run. -/
theorem validate_syntax_short_circuit (syntaxErrors : List JediSyntaxError)
    (checkers : CheckerFindings) (mypyEnabled : Bool)
    (h : syntaxErrors ≠ []) :
    (_validate syntaxErrors checkers mypyEnabled).published
        = syntaxErrors.map jediDiagnostic ∧
      (_validate syntaxErrors checkers mypyEnabled).ranPyflakes = false ∧
      (_validate syntaxErrors checkers mypyEnabled).ranPycodestyle = false ∧
      (_validate syntaxErrors checkers mypyEnabled).ranMypy = false := by
  have hne : syntaxErrors.map jediDiagnostic ≠ [] := by
    simpa using h
  simp [_validate, hne]

/-- Witness for C3: a one-error document with injected findings from every
downstream checker publishes only the syntax diagnostic and runs nothing
else. -/
theorem validate_syntax_short_circuit_witness :
    (_validate [⟨1, 0, 1, 5⟩]
          ⟨[⟨⟨⟨0, 0⟩, ⟨0, 3⟩⟩, "unused import", DiagnosticSeverity.Warning,
              none, some "pyflakes"⟩],
            [⟨⟨⟨0, 0⟩, ⟨0, 3⟩⟩, "E501", DiagnosticSeverity.Warning,
              some "E501", some "pycodestyle"⟩],
            [⟨⟨⟨0, 0⟩, ⟨0, 3⟩⟩, "note", DiagnosticSeverity.Hint,
              none, some "mypy"⟩]⟩ true).published
        = [jediDiagnostic ⟨1, 0, 1, 5⟩] ∧
      (_validate [⟨1, 0, 1, 5⟩]
          ⟨[⟨⟨⟨0, 0⟩, ⟨0, 3⟩⟩, "unused import", DiagnosticSeverity.Warning,
              none, some "pyflakes"⟩],
            [⟨⟨⟨0, 0⟩, ⟨0, 3⟩⟩, "E501", DiagnosticSeverity.Warning,
              some "E501", some "pycodestyle"⟩],
            [⟨⟨⟨0, 0⟩, ⟨0, 3⟩⟩, "note", DiagnosticSeverity.Hint,
              none, some "mypy"⟩]⟩ true).ranPyflakes = false ∧
      (_validate [⟨1, 0, 1, 5⟩]
          ⟨[⟨⟨⟨0, 0⟩, ⟨0, 3⟩⟩, "unused import", DiagnosticSeverity.Warning,
              none, some "pyflakes"⟩],
            [⟨⟨⟨0, 0⟩, ⟨0, 3⟩⟩, "E501", DiagnosticSeverity.Warning,
              some "E501", some "pycodestyle"⟩],
            [⟨⟨⟨0, 0⟩, ⟨0, 3⟩⟩, "note", DiagnosticSeverity.Hint,
              none, some "mypy"⟩]⟩ true).ranPycodestyle = false ∧
      (_validate [⟨1, 0, 1, 5⟩]
          ⟨[⟨⟨⟨0, 0⟩, ⟨0, 3⟩⟩, "unused import", DiagnosticSeverity.Warning,
              none, some "pyflakes"⟩],
            [⟨⟨⟨0, 0⟩, ⟨0, 3⟩⟩, "E501", DiagnosticSeverity.Warning,
              some "E501", some "pycodestyle"⟩],
            [⟨⟨⟨0, 0⟩, ⟨0, 3⟩⟩, "note", DiagnosticSeverity.Hint,
              none, some "mypy"⟩]⟩ true).ranMypy = false := by
  exact validate_syntax_short_circuit _ _ _ (by simp)

/-- **C4 counterexample.** A didChange-style call (`update = true`) for an
identifier that already has a cached handle: when construction raises, the
error propagates, but the cache still holds the old entry — it is *not* left
with no entry for that identifier, and the next plain call returns the stale
handle instead of retrying construction. -/
theorem get_script_failure_keeps_stale_entry :
    (get_script (fun _ => .error "construction failed")
          [("file:///a.py", { code := "x = 1\n", path := "/a.py" })]
          "file:///a.py" true).1
        = .error "construction failed" ∧
      ((get_script (fun _ => .error "construction failed")
            [("file:///a.py", { code := "x = 1\n", path := "/a.py" })]
            "file:///a.py" true).2).lookup "file:///a.py"
        = some { code := "x = 1\n", path := "/a.py" } ∧
      (get_script (fun _ => .error "construction failed")
          ((get_script (fun _ => .error "construction failed")
              [("file:///a.py", { code := "x = 1\n", path := "/a.py" })]
              "file:///a.py" true).2)
          "file:///a.py" false).1
        = .ok { code := "x = 1\n", path := "/a.py" } := by
  refine ⟨rfl, rfl, rfl⟩

/-- **C4 (amended).** When the handle must actually be (re)built — the call
forces an update, or the cache has no entry for the identifier — and
construction raises, the error propagates to the caller and the cache state
is unchanged by the failed call; in particular a prior cache miss remains a
miss, so a subsequent call retries construction. -/
theorem get_script_construction_failure
    (construct : String → Except String Script)
    (scripts : List (String × Script)) (uri : String) (update : Bool)
    (e : String)
    (hmiss : update = true ∨ scripts.lookup uri = none)
    (herr : construct uri = .error e) :
    get_script construct scripts uri update = (.error e, scripts) := by
  rcases hmiss with h | h
  · subst h
    simp [get_script, herr]
  · cases update <;> simp [get_script, h, herr]

/-- Witness for the amended C4: a failing construction on an empty cache
propagates the error and leaves the cache empty. -/
theorem get_script_construction_failure_witness :
    get_script (fun _ => .error "boom") [] "file:///a.py" false
      = (.error "boom", []) :=
  get_script_construction_failure _ [] "file:///a.py" false "boom"
    (Or.inr rfl) rfl

/-- **C5.** Each pyflakes finding on a (syntactically valid) document yields
a diagnostic whose severity is error exactly when the finding's class name
is in the configured escalation set (warning otherwise), and whose range
runs from the reported column on the finding's 0-based line to the end of
that code line with its terminators excluded. -/
theorem flake_severity_and_range (codeLines : List String)
    (errors : List String) (m : FlakeMessage) (h1 : 1 ≤ m.lineno)
    (h2 : (m.lineno - 1).toNat < codeLines.length) :
    (PyflakesReporter.flake codeLines errors m).severity
        = (if m.className ∈ errors then DiagnosticSeverity.Error
           else DiagnosticSeverity.Warning) ∧
      (PyflakesReporter.flake codeLines errors m).range.start
        = ⟨m.lineno - 1, m.col⟩ ∧
      (PyflakesReporter.flake codeLines errors m).range.«end»
        = ⟨m.lineno - 1,
            ((rstripNl (codeLines.get ⟨(m.lineno - 1).toNat, h2⟩)).length :
              Int)⟩ := by
  refine ⟨rfl, rfl, ?_⟩
  have h2' : m.lineno.toNat - 1 < codeLines.length := by omega
  simp [PyflakesReporter.flake, PyflakesReporter._get_codeline,
    List.getElem?_eq_getElem, h2']

/-- Witness for C5: an `UndefinedName` finding at column 2 of `"x = y\n"`
with the default escalation set is an error spanning columns 2–5. -/
theorem flake_severity_and_range_witness :
    (PyflakesReporter.flake ["x = y\n"] ["UndefinedName"]
          ⟨1, 4, "UndefinedName", "undefined name y"⟩).severity
        = DiagnosticSeverity.Error ∧
      (PyflakesReporter.flake ["x = y\n"] ["UndefinedName"]
          ⟨1, 4, "UndefinedName", "undefined name y"⟩).range.start
        = ⟨0, 4⟩ ∧
      (PyflakesReporter.flake ["x = y\n"] ["UndefinedName"]
          ⟨1, 4, "UndefinedName", "undefined name y"⟩).range.«end»
        = ⟨0, 5⟩ := by
  have h := flake_severity_and_range ["x = y\n"] ["UndefinedName"]
    ⟨1, 4, "UndefinedName", "undefined name y"⟩ (by decide) (by decide)
  obtain ⟨hs, hst, he⟩ := h
  refine ⟨by simpa using hs, by simpa using hst, by simpa using he⟩

/-- **C6.** Refuted on the code: `PyflakesReporter.syntaxError` computes the
end column as `len(code_line) - col`, so a syntax error reported at nonzero
offset 3 on the 4-character line `"abcd"` yields a range from column 3 to
column 1 — the end column does not exceed the start column (the range is
inverted), while every other reporter in the file uses the full line
length as the end column. -/
theorem syntaxError_inverted_range :
    (PyflakesReporter.syntaxError ["abcd"] "invalid syntax" 1
          (some 3)).range.start.character = 3 ∧
      (PyflakesReporter.syntaxError ["abcd"] "invalid syntax" 1
          (some 3)).range.«end».character = 1 ∧
      (PyflakesReporter.syntaxError ["abcd"] "invalid syntax" 1
          (some 3)).range.«end».character
        < (PyflakesReporter.syntaxError ["abcd"] "invalid syntax" 1
            (some 3)).range.start.character := by
  refine ⟨rfl, by decide, by decide⟩

/-- Helper (shared): the document-changes loop ignores files whose edit list
is empty. -/
theorem documentChangesLoop_filter (fromFsPath : String → String)
    (docVersion : String → Int) (l : List (String × ChangedFile)) :
    ∀ acc : List TextDocumentEdit,
      documentChangesLoop fromFsPath docVersion acc l
        = documentChangesLoop fromFsPath docVersion acc
            (l.filter (fun p => !(_get_text_edits p.2).isEmpty)) := by
  induction l with
  | nil => intro acc; rfl
  | cons p rest ih =>
      intro acc
      by_cases he : _get_text_edits p.2 = []
      · simp [documentChangesLoop, he, List.filter_cons, ih]
      · simp [documentChangesLoop, he, List.filter_cons, ih]

/-- Helper (shared): when every file's edit list is empty, the loop emits
nothing beyond its accumulator. -/
theorem documentChangesLoop_all_nil (fromFsPath : String → String)
    (docVersion : String → Int) (l : List (String × ChangedFile))
    (h : ∀ p ∈ l, _get_text_edits p.2 = []) :
    ∀ acc : List TextDocumentEdit,
      documentChangesLoop fromFsPath docVersion acc l = acc := by
  induction l with
  | nil => intro acc; rfl
  | cons p rest ih =>
      intro acc
      have hp : _get_text_edits p.2 = [] := h p (by simp)
      have hrest : ∀ q ∈ rest, _get_text_edits q.2 = [] := fun q hq =>
        h q (List.mem_cons_of_mem _ hq)
      simp [documentChangesLoop, hp, ih hrest]

/-- **C7.** A changed file whose coalesced edit list is empty contributes no
per-file edit group (the response equals the one computed from the files
with non-empty edit lists only); and when every changed file's new content
equals its old content, the code-action request returns `None` — no code
action at all, not an empty edit. -/
theorem refactoring_noop_files_omitted (fromFsPath : String → String)
    (docVersion : String → Int) :
    (∀ changedFiles : List (String × ChangedFile),
        _get_document_changes fromFsPath docVersion changedFiles
          = _get_document_changes fromFsPath docVersion
              (changedFiles.filter (fun p => !(_get_text_edits p.2).isEmpty))) ∧
      (∀ (changedFiles : List (String × ChangedFile)) (pos : Position),
        (∀ p ∈ changedFiles, p.2.newLines = p.2.oldLines) →
        code_action fromFsPath docVersion (.ok changedFiles) pos pos
          = { response := none, inlineInvoked := true }) := by
  constructor
  · intro changedFiles
    exact documentChangesLoop_filter fromFsPath docVersion changedFiles []
  · intro changedFiles pos h
    have hnil : ∀ p ∈ changedFiles, _get_text_edits p.2 = [] := fun p hp =>
      getTextEdits_self p.2 (h p hp)
    have hdc : _get_document_changes fromFsPath docVersion changedFiles = [] :=
      documentChangesLoop_all_nil fromFsPath docVersion changedFiles hnil []
    simp [code_action, hdc]

/-- Witness for C7: a two-file refactoring where one file is a no-op keeps
only the other file's edit group, and an all-no-op refactoring yields no
code action. -/
theorem refactoring_noop_files_omitted_witness :
    (_get_document_changes id (fun _ => 0)
          [("a.py", ⟨["x\n"], ["y\n"]⟩), ("b.py", ⟨["z\n"], ["z\n"]⟩)]
        = _get_document_changes id (fun _ => 0)
            ([("a.py", ⟨["x\n"], ["y\n"]⟩),
              ("b.py", ⟨["z\n"], ["z\n"]⟩)].filter
              (fun p => !(_get_text_edits p.2).isEmpty))) ∧
      code_action id (fun _ => 0) (.ok [("b.py", ⟨["z\n"], ["z\n"]⟩)])
          ⟨0, 0⟩ ⟨0, 0⟩
        = { response := none, inlineInvoked := true } := by
  have h := refactoring_noop_files_omitted id (fun _ => 0)
  exact ⟨h.1 _, h.2 _ _ (by decide)⟩

/-- **C8.** A code-action request whose selection is non-empty (start
position differs from end position) returns `None` immediately, without
invoking the engine's refactoring operation. -/
theorem code_action_nonempty_selection (fromFsPath : String → String)
    (docVersion : String → Int)
    (inline : Except Unit (List (String × ChangedFile)))
    (rangeStart rangeEnd : Position) (h : rangeStart ≠ rangeEnd) :
    code_action fromFsPath docVersion inline rangeStart rangeEnd
      = { response := none, inlineInvoked := false } := by
  simp [code_action, h]

/-- Witness for C8: a one-character selection gets no action and no inline
attempt, even though the engine would have produced a real change. -/
theorem code_action_nonempty_selection_witness :
    code_action id (fun _ => 0) (.ok [("a.py", ⟨["x\n"], ["y\n"]⟩)])
        ⟨0, 0⟩ ⟨0, 1⟩
      = { response := none, inlineInvoked := false } :=
  code_action_nonempty_selection id (fun _ => 0) _ ⟨0, 0⟩ ⟨0, 1⟩ (by decide)

/-- **C9.** `definition` and `references` both return `_get_locations` of
the engine's names; `_get_locations` drops every name without a module path
(the output has exactly one location per name with one), and every returned
range lies on the name's 0-based line (reported 1-based), from the reported
column to that column plus the length of the name. -/
theorem locations_spec (fromFsPath : String → String)
    (engine : Int → Int → List Name) (line character : Int) :
    (definition fromFsPath engine line character
        = _get_locations fromFsPath (engine (line + 1) character)) ∧
      (references fromFsPath engine line character
        = _get_locations fromFsPath (engine (line + 1) character)) ∧
      ∀ names : List Name,
        ((_get_locations fromFsPath names).length
            = (names.filter (fun d => d.module_path.isSome)).length) ∧
          ∀ loc ∈ _get_locations fromFsPath names, ∃ d ∈ names,
            d.module_path.isSome ∧
              loc.range
                = ⟨⟨d.line - 1, d.column⟩,
                    ⟨d.line - 1, d.column + (d.name.length : Int)⟩⟩ := by
  refine ⟨rfl, rfl, ?_⟩
  intro names
  constructor
  · induction names with
    | nil => rfl
    | cons d rest ih =>
        simp only [_get_locations] at ih ⊢
        cases hd : d.module_path <;>
          simp [List.filterMap_cons, hd, List.filter_cons, ih]
  · intro loc hloc
    rw [_get_locations, List.mem_filterMap] at hloc
    obtain ⟨d, hd, hfd⟩ := hloc
    cases hmp : d.module_path with
    | none => rw [hmp] at hfd; simp at hfd
    | some p =>
        rw [hmp] at hfd
        simp only [Option.some.injEq] at hfd
        exact ⟨d, hd, by simp [hmp], by rw [← hfd]⟩

/-- Witness for C9: the location emitted for a name `"foo"` reported at
line 3, column 4 of `/m.py` spans columns 4–7 of 0-based line 2, and stems
from a name with a module path. -/
theorem locations_spec_witness :
    ∃ d ∈ ([⟨some "/m.py", 3, 4, "foo"⟩] : List Name),
      d.module_path.isSome ∧
        (Location.mk "/m.py" ⟨⟨2, 4⟩, ⟨2, 7⟩⟩).range
          = ⟨⟨d.line - 1, d.column⟩,
              ⟨d.line - 1, d.column + (d.name.length : Int)⟩⟩ := by
  have h := locations_spec id (fun _ _ => [⟨some "/m.py", 3, 4, "foo"⟩]) 0 0
  exact (h.2.2 [⟨some "/m.py", 3, 4, "foo"⟩]).2
    ⟨"/m.py", ⟨⟨2, 4⟩, ⟨2, 7⟩⟩⟩ (by decide)

/-- **C10.** A configuration push whose only recognized key is
`help_on_hover` updates that config field, triggers no revalidation of any
open document, and leaves both derived caches untouched. -/
theorem config_help_on_hover_frame {α : Type} (st : ServerState α)
    (docs : List String) (s : AnakinSettings) (b : Bool)
    (h1 : s.pyflakes_errors = none) (h2 : s.pycodestyle_config = none)
    (h3 : s.mypy_enabled = none) (h4 : s.help_on_hover = some b) :
    did_change_configuration st docs (some s)
      = { state :=
            { config := { st.config with help_on_hover := b }
              pycodestyleOptions := st.pycodestyleOptions
              mypyConfigs := st.mypyConfigs }
          revalidated := [] } := by
  simp [did_change_configuration, h1, h2, h3, h4]

/-- Witness for C10: flipping only `help_on_hover` on a populated state
changes that field alone and revalidates nothing. -/
theorem config_help_on_hover_frame_witness :
    did_change_configuration
        { config :=
            { pyflakes_errors := ["UndefinedName"]
              pycodestyle_config := none
              help_on_hover := true
              mypy_enabled := false }
          pycodestyleOptions := [("/ws", (7 : Nat))]
          mypyConfigs := [("/ws", "")] }
        ["file:///a.py"]
        (some { help_on_hover := some false })
      = { state :=
            { config :=
                { pyflakes_errors := ["UndefinedName"]
                  pycodestyle_config := none
                  help_on_hover := false
                  mypy_enabled := false }
              pycodestyleOptions := [("/ws", (7 : Nat))]
              mypyConfigs := [("/ws", "")] }
          revalidated := [] } := by
  have h := config_help_on_hover_frame
    { config :=
        { pyflakes_errors := ["UndefinedName"]
          pycodestyle_config := none
          help_on_hover := true
          mypy_enabled := false }
      pycodestyleOptions := [("/ws", (7 : Nat))]
      mypyConfigs := [("/ws", "")] }
    ["file:///a.py"] { help_on_hover := some false } false rfl rfl rfl rfl
  simpa using h

end Anakinls
